import Mathlib

/-!
Shallow embedding of the VM-MAD orchestrator core (vmmad/orchestrator.py,
vmmad/webapp.py, vmmad/provider/libcloud.py, vmmad/batchsys/replay.py).

Modelling conventions:

* Python dicts are represented as association lists; assignment replaces
  every binding of the key (dict keys are unique), deletion removes them,
  lookup returns the first binding.
* Timestamps and durations (Python floats) are modelled as integers; the
  code only adds and compares them.
* Fallible Python code (assertion failures, attribute lookups that may
  raise `AttributeError`) is modelled with `Option`: `none` is an
  uncaught exception.
* The free-form `Struct` attribute bags are modelled as records whose
  dynamically-added attributes are `Option`-valued; reading an absent
  attribute is an `AttributeError`, hence `none`.
* The thread pool (`apply_async`) is modelled by executing the dispatched
  operation at the point of dispatch (deterministic interleaving in which
  every worker completes immediately); success or failure of the cloud
  provider calls is supplied by boolean oracles.
-/

namespace VmMad

/-- Python dict lookup (`d[k]` / `k in d`), over an association list. -/
def dlookup {α : Type} (m : List (String × α)) (k : String) : Option α :=
  (m.find? (fun p => p.1 = k)).map (fun p => p.2)

/-- Python dict assignment `d[k] = v`: replaces any existing binding. -/
def dset {α : Type} (m : List (String × α)) (k : String) (v : α) : List (String × α) :=
  (k, v) :: m.filter (fun p => p.1 ≠ k)

/-- Python dict deletion `del d[k]`. -/
def ddel {α : Type} (m : List (String × α)) (k : String) : List (String × α) :=
  m.filter (fun p => p.1 ≠ k)

/-- Job states (`JobInfo.PENDING` &c., orchestrator.py lines 73-76). -/
inductive JobState where
  | PENDING
  | RUNNING
  | FINISHED
  | OTHER
deriving DecidableEq

/-- VM states (`VmInfo.STARTING` &c., orchestrator.py lines 164-169). -/
inductive VmState where
  | STARTING
  | READY
  | STOPPING
  | DRAINING
  | DOWN
  | OTHER
deriving DecidableEq

/-- A `JobInfo` record (orchestrator.py lines 43-115).  The constructor
guarantees `jobid` and a valid `state`; every other attribute is a
dynamically added `Struct` field, hence `Option`-valued here. -/
structure JobInfo where
  jobid : String
  state : JobState
  name : Option String := none
  submitted_at : Option Int := none
  running_at : Option Int := none
  exec_node_name : Option String := none
  duration : Option Int := none
deriving DecidableEq

/-- A `VmInfo` record (orchestrator.py lines 118-209).  `vmid` is required
by the constructor; `state`, `bill` and `jobs` are defaulted by the
constructor; the remaining attributes are dynamically added fields. -/
structure VmInfoRec where
  vmid : String
  state : VmState
  bill : Int
  jobs : Finset String
  auth : Option String := none
  nodename : Option String := none
  started_at : Option Int := none
  ready_at : Option Int := none
  stopped_at : Option Int := none
  total_idle : Option Int := none
  last_idle : Option Int := none
  running_time : Option Int := none
deriving DecidableEq

/-- The keyword-argument bag passed to `VmInfo.__init__` (every attribute
optional: absent keyword = `none`). -/
structure VmAttrs where
  vmid : Option String := none
  state : Option VmState := none
  bill : Option Int := none
  jobs : Option (Finset String) := none
  auth : Option String := none
  nodename : Option String := none
  started_at : Option Int := none
  ready_at : Option Int := none
  stopped_at : Option Int := none
  total_idle : Option Int := none
  last_idle : Option Int := none
  running_time : Option Int := none
deriving DecidableEq

/-- `VmInfo.__init__` (orchestrator.py lines 171-189): asserts that `vmid`
is present; defaults `state` to `DOWN`, otherwise asserts that the given
state is one of `[STARTING, READY, STOPPING, DOWN, OTHER]` (note: the
assertion list omits `DRAINING` although the class defines it and the
docstring lists it); defaults `bill` to `0.0` and `jobs` to the empty
set.  `none` is an `AssertionError`. -/
def vmInfoInit (attrs : VmAttrs) : Option VmInfoRec :=
  match attrs.vmid with
  | none => none
  | some v =>
    let stOk : Option VmState :=
      match attrs.state with
      | none => some VmState.DOWN
      | some s =>
        if s ∈ [VmState.STARTING, VmState.READY, VmState.STOPPING,
                VmState.DOWN, VmState.OTHER]
        then some s else none
    match stOk with
    | none => none
    | some s =>
      some { vmid := v
             state := s
             bill := attrs.bill.getD 0
             jobs := attrs.jobs.getD ∅
             auth := attrs.auth
             nodename := attrs.nodename
             started_at := attrs.started_at
             ready_at := attrs.ready_at
             stopped_at := attrs.stopped_at
             total_idle := attrs.total_idle
             last_idle := attrs.last_idle
             running_time := attrs.running_time }

/-- The mutable state owned by an `Orchestrator` instance
(orchestrator.py lines 272-288).  `vms` is keyed by `vm.vmid`; the
auxiliary maps `pending_auth` and `vms_by_nodename` store references to
the very objects held in `vms`, modelled here as `vmid` indirections. -/
structure OrchState where
  vms : List VmInfoRec
  pending_auth : List (String × String)
  vms_by_nodename : List (String × String)
  jobs : List JobInfo
  candidates : Finset String
  vmid_counter : Nat
  last_update : Int
deriving DecidableEq

/-- Lookup a VM by its `vmid` in the `vms` dict. -/
def lookupVm (vms : List VmInfoRec) (vmid : String) : Option VmInfoRec :=
  vms.find? (fun vm => vm.vmid = vmid)

/-- Dict assignment `self.vms[vm.vmid] = vm`. -/
def setVm (vms : List VmInfoRec) (vm : VmInfoRec) : List VmInfoRec :=
  if (vms.find? (fun w => w.vmid = vm.vmid)).isSome then
    vms.map (fun w => if w.vmid = vm.vmid then vm else w)
  else vms ++ [vm]

/-- `Orchestrator.vm_is_ready(auth, nodename)` (orchestrator.py lines
554-585).  If `auth` is not a key of `_pending_auth`, log and return
`False` without touching any state.  Otherwise pop the VM, assert it is
`STARTING` (an `AssertionError`, hence `none`, otherwise), set
`state = READY`, `ready_at = self.time()`, `nodename = nodename` (the
argument exactly as given — no suffix stripping happens here), register
it in `_vms_by_nodename` (overwriting any previous binding), and return
`True`.  The aliased update of the object stored in `vms` is rendered by
writing the updated record back at its `vmid`; a pending auth whose VM
object is no longer reachable through `vms` is outside this model
(`none`). -/
def vm_is_ready (now : Int) (auth nodename : String) (st : OrchState) :
    Option (Bool × OrchState) :=
  match dlookup st.pending_auth auth with
  | none => some (false, st)
  | some vmid =>
    match lookupVm st.vms vmid with
    | none => none
    | some vm =>
      if vm.state = VmState.STARTING then
        let vm' := { vm with state := VmState.READY
                             ready_at := some now
                             nodename := some nodename }
        some (true,
          { st with vms := setVm st.vms vm'
                    pending_auth := ddel st.pending_auth auth
                    vms_by_nodename := dset st.vms_by_nodename nodename vmid })
      else none

/-- `nodename = nodename.split('.')[0]` (webapp.py line 94): the host
name with any DNS suffix stripped, i.e. its prefix up to the first
dot. -/
def nodenameOfHostname (h : String) : String :=
  String.mk (h.data.takeWhile (fun c => c ≠ '.'))

/-- An HTTP response: status code and body. -/
structure HttpResponse where
  status : Nat
  body : String
deriving DecidableEq

/-- `OrchestratorWebApp.ready` (webapp.py lines 72-100).  Missing `auth`
or `hostname` parameter: respond 400 with an error message.  Otherwise
strip the DNS suffix from the hostname, call `vm_is_ready`, ignore its
boolean result, and respond `200 "OK"`.  (The Flask variant in
webapp/__init__.py behaves the same except that the 400 responses for
missing parameters are produced by the framework.) -/
def readyEndpoint (now : Int) (params : List (String × String)) (st : OrchState) :
    Option (HttpResponse × OrchState) :=
  match dlookup params "auth" with
  | none => some (⟨400, "ERROR: Missing required parameter auth"⟩, st)
  | some auth =>
    match dlookup params "hostname" with
    | none => some (⟨400, "ERROR: Missing required parameter hostname"⟩, st)
    | some hostname =>
      let nodename := nodenameOfHostname hostname
      match vm_is_ready now auth nodename st with
      | none => none
      | some (_, st') => some (⟨200, "OK"⟩, st')

/-- A sequence of `vm_is_ready` calls with one fixed `auth`, returning how
many of them returned `True`. -/
def readyCalls (now : Int) (auth : String) :
    List String → OrchState → Option (Nat × OrchState)
  | [], st => some (0, st)
  | h :: hs, st =>
    match vm_is_ready now auth h st with
    | none => none
    | some (b, st') =>
      match readyCalls now auth hs st' with
      | none => none
      | some (n, st'') => some ((if b then 1 else 0) + n, st'')

/-! ### Replay batch system (vmmad/batchsys/replay.py) -/

/-- A job loaded by `JobsFromFile.__init__`: always constructed with
`jobid`, `state=PENDING`, `submitted_at` and `duration` set. -/
structure RJob where
  jobid : String
  submitted_at : Int
  duration : Int
deriving DecidableEq, Repr

/-- State of a `JobsFromFile` instance.  The source keeps `future_jobs`
sorted by descending submission time and pops from the end of the list;
we keep the same sequence of pops by storing the list in ascending order
and popping from the front. -/
structure ReplayState where
  future_jobs : List RJob
  time_last_checked : Int
  jobs : List RJob
deriving DecidableEq, Repr

/-- `JobsFromFile.next_jobs(since, until)` (replay.py lines 131-144):
pop future jobs while their submission time is `≤ until`; yield those
with `submitted_at ≥ since`, silently drop those submitted before
`since`; the first job submitted after `until` is pushed back and ends
the iteration.  Returns the remaining future jobs and the yielded
jobs. -/
def next_jobs (since untl : Int) : List RJob → List RJob × List RJob
  | [] => ([], [])
  | j :: rest =>
    if untl ≥ j.submitted_at then
      let (fut, ys) := next_jobs since untl rest
      if j.submitted_at ≥ since then (fut, j :: ys) else (fut, ys)
    else (j :: rest, [])

/-- The removal loop of `get_sched_info` (replay.py lines 126-128):
`for i, job in enumerate(self.jobs): if job.submitted_at + job.duration < now: del self.jobs[i]`.
Deleting at index `i` shifts the remainder left while the iterator
still advances, so the element right after a deleted one is never
examined.  `p` is the iterator position; the first argument is fuel
bounding the number of iterations. -/
def removeTerminatedLoop (now : Int) : Nat → Nat → List RJob → List RJob
  | 0, _, js => js
  | fuel + 1, p, js =>
    if h : p < js.length then
      if (js.get ⟨p, h⟩).submitted_at + (js.get ⟨p, h⟩).duration < now then
        removeTerminatedLoop now fuel (p + 1) (js.eraseIdx p)
      else
        removeTerminatedLoop now fuel (p + 1) js
    else js

/-- The removal loop, started at position `0`.  The fuel `js.length`
covers every iteration the Python loop performs: the position increases
by one per iteration and the list never grows, so the loop stops within
`js.length` iterations. -/
def removeTerminatedJobs (now : Int) (js : List RJob) : List RJob :=
  removeTerminatedLoop now js.length 0 js

/-- `JobsFromFile.get_sched_info()` (replay.py lines 109-129): append the
jobs submitted since the last check, then run the (faulty) removal loop
over the queue, and return the resulting list.  `next_jobs` asserts
`until > since`; `none` models that `AssertionError`. -/
def get_sched_info (now : Int) (st : ReplayState) :
    Option (List RJob × ReplayState) :=
  if now > st.time_last_checked then
    let (fut, fresh) := next_jobs st.time_last_checked now st.future_jobs
    let jobs1 := st.jobs ++ fresh
    let jobs2 := removeTerminatedJobs now jobs1
    some (jobs2, { future_jobs := fut, time_last_checked := now, jobs := jobs2 })
  else none

/-! ### LibCloud provider state mapping (vmmad/provider/libcloud.py) -/

/-- LibCloud `NodeState` constants. -/
inductive NodeState where
  | RUNNING
  | REBOOTING
  | TERMINATED
  | PENDING
  | UNKNOWN
deriving DecidableEq, Repr

/-- Python class-attribute lookup `getattr(VmInfo, name)` restricted to
the state words `VmInfo` actually defines (orchestrator.py lines
164-169); any other name raises `AttributeError`, hence `none`. -/
def vmInfoStateWord : String → Option VmState
  | "STARTING" => some VmState.STARTING
  | "READY" => some VmState.READY
  | "STOPPING" => some VmState.STOPPING
  | "DRAINING" => some VmState.DRAINING
  | "DOWN" => some VmState.DOWN
  | "OTHER" => some VmState.OTHER
  | _ => none

/-- `CloudNodeProvider._vminfo_state_from_libcloud_status(status)`
(libcloud.py lines 48-60).  The dict literal evaluates all of its values
before the subscript, so every call first evaluates `VmInfo.UP` — an
attribute `VmInfo` does not define. -/
def vminfoStateFromLibcloudStatus (status : NodeState) : Option VmState := do
  let vRunning ← vmInfoStateWord "UP"
  let vRebooting ← vmInfoStateWord "STARTING"
  let vTerminated ← vmInfoStateWord "DOWN"
  let vPending ← vmInfoStateWord "STARTING"
  let vUnknown ← vmInfoStateWord "OTHER"
  match status with
  | NodeState.RUNNING => some vRunning
  | NodeState.REBOOTING => some vRebooting
  | NodeState.TERMINATED => some vTerminated
  | NodeState.PENDING => some vPending
  | NodeState.UNKNOWN => some vUnknown

/-! ### `Orchestrator.update_job_status` (orchestrator.py lines 462-551) -/

/-- The upsert loop (lines 474-501).  `self.jobs[jobid].update(job)` is
called for a job already in the table, but `Struct` derives from
`collections.Mapping`, which provides no `update` method: the call
raises `AttributeError` (`none`).  On insert, the logging branch asserts
`running_at >= last_update` (or, failing a `running_at` attribute,
`submitted_at >= last_update`); `freshJobTimeOk` is that assertion. -/
def freshJobTimeOk (lastUpd : Int) (j : JobInfo) : Bool :=
  match j.running_at with
  | some ra => ra ≥ lastUpd
  | none =>
    match j.submitted_at with
    | some sa => sa ≥ lastUpd
    | none => true

/-- The body of the upsert loop (see `upsertJobs`). -/
def upsertJobs (lastUpd : Int) (jobs : List JobInfo) :
    List JobInfo → Option (List JobInfo)
  | [] => some jobs
  | j :: rest =>
    if (jobs.find? (fun q => q.jobid = j.jobid)).isSome then none
    else if freshJobTimeOk lastUpd j then upsertJobs lastUpd (jobs ++ [j]) rest
    else none

/-- The per-terminated-job assertions (lines 509-517): a `RUNNING` job
must carry `exec_node_name` (the log line reads it); a `PENDING` job
must not. -/
def terminatedJobOk (j : JobInfo) : Bool :=
  match j.state with
  | JobState.RUNNING => j.exec_node_name.isSome
  | JobState.PENDING => j.exec_node_name = none
  | _ => true

/-- The removal loop over `terminated` (lines 507-522): check the
assertions, discard the job from `candidates` if present, and delete it
from the `jobs` table. -/
def removeFinishedJobs (jobs : List JobInfo) (cands : Finset String) :
    List String → Option (List JobInfo × Finset String)
  | [] => some (jobs, cands)
  | i :: is =>
    match jobs.find? (fun q => q.jobid = i) with
    | none => none
    | some j =>
      if terminatedJobOk j then
        removeFinishedJobs (jobs.filter (fun q => q.jobid ≠ i)) (cands.erase i) is
      else none

/-- One iteration of the running/pending loop (lines 530-548).  A
`RUNNING` job reads `running_at` (and, when fresh, `exec_node_name`); a
fresh one is dropped from `candidates` and recorded in the `jobs` set of
the VM its exec node name maps to.  A `PENDING` job reads
`submitted_at`; a fresh cloud candidate is asserted absent from and then
added to `candidates`. -/
def processJob (isCand : JobInfo → Bool) (lastUpd : Int) (st : OrchState)
    (j : JobInfo) : Option OrchState :=
  if j.state = JobState.RUNNING then
    match j.running_at with
    | none => none
    | some ra =>
      if ra > lastUpd then
        match j.exec_node_name with
        | none => none
        | some enn =>
          let st1 := { st with candidates := st.candidates.erase j.jobid }
          match dlookup st1.vms_by_nodename enn with
          | some vmid =>
            some { st1 with vms := st1.vms.map (fun vm =>
                     if vm.vmid = vmid then { vm with jobs := insert j.jobid vm.jobs }
                     else vm) }
          | none => some st1
      else some st
  else if j.state = JobState.PENDING then
    match j.submitted_at with
    | none => none
    | some sa =>
      if sa > lastUpd then
        if isCand j then
          if j.jobid ∈ st.candidates then none
          else some { st with candidates := insert j.jobid st.candidates }
        else some st
      else some st
  else some st

/-- Fold of `processJob` over `self.jobs.values()`. -/
def processJobs (isCand : JobInfo → Bool) (lastUpd : Int) :
    OrchState → List JobInfo → Option OrchState
  | st, [] => some st
  | st, j :: js =>
    match processJob isCand lastUpd st j with
    | none => none
    | some st' => processJobs isCand lastUpd st' js

/-- `terminated = jobids - current_jobids` (lines 504-506): the ids in
the (already upserted) job table that do not occur in the snapshot. -/
def terminatedIds (jobs1 current_jobs : List JobInfo) : List String :=
  (jobs1.map (fun j => j.jobid)).filter
    (fun i => ¬ (current_jobs.map (fun j => j.jobid)).contains i)

/-- `vm.jobs -= terminated` for every active VM (lines 523-527). -/
def subtractFromActiveVms (termSet : Finset String) (vms : List VmInfoRec) :
    List VmInfoRec :=
  vms.map (fun vm =>
    if vm.state = VmState.READY ∨ vm.state = VmState.DRAINING then
      { vm with jobs := vm.jobs \ termSet }
    else vm)

/-- `Orchestrator.update_job_status()` (lines 462-551): upsert the
snapshot into the job table; compute `terminated` as the table ids minus
the snapshot ids; delete terminated jobs from the table and from
`candidates`; subtract them from the `jobs` set of every VM in
`READY`/`DRAINING`; process running and pending jobs; finally set
`last_update = now`. -/
def update_job_status (isCand : JobInfo → Bool) (current_jobs : List JobInfo)
    (now : Int) (st : OrchState) : Option OrchState :=
  match upsertJobs st.last_update st.jobs current_jobs with
  | none => none
  | some jobs1 =>
    let terminated := terminatedIds jobs1 current_jobs
    match removeFinishedJobs jobs1 st.candidates terminated with
    | none => none
    | some (jobs2, cands2) =>
      let vms2 := subtractFromActiveVms terminated.toFinset st.vms
      let st2 : OrchState :=
        { st with jobs := jobs2, candidates := cands2, vms := vms2 }
      match processJobs isCand st.last_update st2 jobs2 with
      | none => none
      | some st3 => some { st3 with last_update := now }

/-! ### VM creation and the reconciliation cycle (orchestrator.py) -/

/-- The `while passwd in self._pending_auth` retry loop of `new_vm`
(lines 448-452): `random_password()` draws are supplied as the stream
`draws`; the first draw that is not a pending auth key is kept.  `none`
when the (finite) stream runs dry. -/
def pickAuth (pending : List (String × String)) : List String → Option (String × List String)
  | [] => none
  | p :: ps =>
    if (dlookup pending p).isSome then pickAuth pending ps
    else some (p, ps)

/-- `Orchestrator.new_vm()` with no keyword arguments (lines 435-459):
a fresh `vmid` from the monotone counter (stringified), a fresh `auth`
token not currently pending, and the standard attribute defaults
`state=STARTING`, `total_idle=0`, `last_idle=0`, `running_time=0`,
bundled through `VmInfo.__init__`. -/
def new_vm (st : OrchState) (draws : List String) :
    Option (VmInfoRec × OrchState × List String) :=
  let vmid := toString (st.vmid_counter + 1)
  match pickAuth st.pending_auth draws with
  | none => none
  | some (auth, draws') =>
    match vmInfoInit { vmid := some vmid, auth := some auth,
                       state := some VmState.STARTING,
                       total_idle := some 0, last_idle := some 0,
                       running_time := some 0 } with
    | none => none
    | some vm => some (vm, { st with vmid_counter := st.vmid_counter + 1 }, draws')

/-- `Orchestrator._do_start_vm(vm)` (lines 372-384), with the worker run
at the dispatch point.  Asserts `vm.vmid not in self.vms`.  If
`cloud.start_vm` succeeds (`ok`): set `started_at`, add the VM to `vms`
and its auth to `_pending_auth`.  On failure the local object is set
`DOWN` and never indexed, so the orchestrator state is unchanged. -/
def do_start_vm (ok : Bool) (now : Int) (vm : VmInfoRec) (st : OrchState) :
    Option OrchState :=
  if (lookupVm st.vms vm.vmid).isSome then none
  else if ok then
    match vm.auth with
    | none => none
    | some a =>
      let vm' := { vm with started_at := some now }
      some { st with vms := st.vms ++ [vm'],
                     pending_auth := dset st.pending_auth a vm'.vmid }
  else some st

/-- `Orchestrator._do_stop_vm(vm)` (lines 386-411), run at the dispatch
point.  On success: `stopped_at = now`, `state = DOWN` (the logging
`AttributeError` over `ready_at`/`nodename` is caught in the source).
On failure the state is left as it was, to be retried next cycle. -/
def do_stop_vm (ok : Bool) (now : Int) (vm : VmInfoRec) : VmInfoRec :=
  if ok then { vm with stopped_at := some now, state := VmState.DOWN } else vm

/-- The body of the garbage-collection / book-keeping loop of
`Orchestrator.run` for one VM (lines 318-333).  A `DOWN` VM is deleted
from `vms` (`some none`).  A `STARTING` VM past `vm_start_timeout` gets
an asynchronous stop dispatched (applied after the body, which only
reads the pre-stop state).  VMs in `READY`/`STOPPING`/`OTHER` accumulate
`running_time`; a VM with an empty `jobs` set accumulates `total_idle`
and `last_idle`, a VM holding jobs has `last_idle` reset to `0`.
Reading an absent counter (or `started_at`) is an `AttributeError`
(outer `none`). -/
def gcVm (stopOk : String → Bool) (now elapsed timeout : Int)
    (vm : VmInfoRec) : Option (Option VmInfoRec) :=
  if vm.state = VmState.DOWN then some none
  else
    let timedOut : Option Bool :=
      if vm.state = VmState.STARTING then
        match vm.started_at with
        | none => none
        | some sa => some (now - sa > timeout)
      else some false
    match timedOut with
    | none => none
    | some tmo =>
      let vm1 : Option VmInfoRec :=
        if vm.state = VmState.READY ∨ vm.state = VmState.STOPPING ∨
            vm.state = VmState.OTHER then
          match vm.running_time with
          | none => none
          | some rt => some { vm with running_time := some (rt + elapsed) }
        else some vm
      match vm1 with
      | none => none
      | some v1 =>
        let vm2 : Option VmInfoRec :=
          if v1.jobs = ∅ then
            match v1.total_idle, v1.last_idle with
            | some ti, some li =>
              some { v1 with total_idle := some (ti + elapsed),
                             last_idle := some (li + elapsed) }
            | _, _ => none
          else some { v1 with last_idle := some 0 }
        match vm2 with
        | none => none
        | some v2 =>
          some (some (if tmo then do_stop_vm (stopOk v2.vmid) now v2 else v2))

/-- The garbage-collection loop over `self.vms.values()` (a snapshot of
the dict's values), collecting the VMs that stay managed. -/
def gcLoop (stopOk : String → Bool) (now elapsed timeout : Int) :
    List VmInfoRec → Option (List VmInfoRec)
  | [] => some []
  | vm :: rest =>
    match gcVm stopOk now elapsed timeout vm with
    | none => none
    | some r =>
      match gcLoop stopOk now elapsed timeout rest with
      | none => none
      | some rest' =>
        some (match r with
              | none => rest'
              | some v => v :: rest')

/-- The start loop of `Orchestrator.run` (lines 335-340): up to
`max_delta` times, if `is_new_vm_needed()` holds and `len(self.vms) <
max_vms`, dispatch `_do_start_vm(self.new_vm())`, else break.  Returns
the state, the unread tail of the password stream, and the number of
start dispatches issued. -/
def startLoopGo (needNew : OrchState → Bool) (startOk : String → Bool)
    (now : Int) (max_vms : Nat) :
    Nat → OrchState → List String → Option (OrchState × List String × Nat)
  | 0, st, draws => some (st, draws, 0)
  | n + 1, st, draws =>
    if needNew st ∧ st.vms.length < max_vms then
      match new_vm st draws with
      | none => none
      | some (vm, st1, draws1) =>
        match do_start_vm (startOk vm.vmid) now vm st1 with
        | none => none
        | some st2 =>
          match startLoopGo needNew startOk now max_vms n st2 draws1 with
          | none => none
          | some (st3, draws2, d) => some (st3, draws2, d + 1)
    else some (st, draws, 0)

/-- The stop loop of `Orchestrator.run` (lines 348-355): every `READY`
VM for which `can_vm_be_stopped` holds is set `STOPPING` synchronously
and an asynchronous stop is dispatched (run here at the dispatch
point). -/
def stopLoop (canStop : VmInfoRec → Bool) (stopOk : String → Bool)
    (now : Int) (vms : List VmInfoRec) : List VmInfoRec :=
  vms.map (fun vm =>
    if vm.state = VmState.READY ∧ canStop vm then
      do_stop_vm (stopOk vm.vmid) now { vm with state := VmState.STOPPING }
    else vm)

/-- One cycle of `Orchestrator.run` (lines 307-360): update jobs,
refresh VM states from the cloud (`update_vm_status` may only mutate
per-VM state, rendered by the `newState` oracle), garbage-collect and
update book-keeping, start new VMs (counting dispatches), stop VMs no
longer needed.  Returns the end-of-cycle state and the number of start
dispatches issued. -/
def runCycle (isCand : JobInfo → Bool) (needNew : OrchState → Bool)
    (canStop : VmInfoRec → Bool) (newState : VmInfoRec → VmState)
    (startOk stopOk : String → Bool) (snapshot : List JobInfo)
    (draws : List String) (now elapsed timeout : Int)
    (max_vms max_delta : Nat) (st : OrchState) : Option (OrchState × Nat) :=
  match update_job_status isCand snapshot now st with
  | none => none
  | some st1 =>
    let st2 := { st1 with
      vms := st1.vms.map (fun (vm : VmInfoRec) => { vm with state := newState vm }) }
    match gcLoop stopOk now elapsed timeout st2.vms with
    | none => none
    | some vms3 =>
      let st3 := { st2 with vms := vms3 }
      match startLoopGo needNew startOk now max_vms max_delta st3 draws with
      | none => none
      | some (st4, _, d) =>
        let st5 := { st4 with vms := stopLoop canStop stopOk now st4.vms }
        some (st5, d)

/-! ### Auxiliary definitions used by the verification -/

/-- Decidable form of the `_pending_auth` invariant at one auth token:
if the token is pending, the VM it references is reachable through
`vms` and is `STARTING`. -/
def pendingStartingOk (st : OrchState) (auth : String) : Bool :=
  match dlookup st.pending_auth auth with
  | none => true
  | some vmid =>
    match lookupVm st.vms vmid with
    | none => false
    | some vm => vm.state = VmState.STARTING

/-- The per-VM book-keeping step of `Orchestrator.run`, iterated over
consecutive cycles whose elapsed times are given by the list. -/
def gcIter (stopOk : String → Bool) (now timeout : Int) :
    List Int → VmInfoRec → Option VmInfoRec
  | [], vm => some vm
  | e :: es, vm =>
    match gcVm stopOk now e timeout vm with
    | some (some vm') => gcIter stopOk now timeout es vm'
    | _ => none

/-! ### Concrete instances -/

/-- A `STARTING` VM as created by `new_vm` and `_do_start_vm`. -/
def vmStarting1 : VmInfoRec :=
  { vmid := "1", state := VmState.STARTING, bill := 0, jobs := ∅,
    auth := some "a", started_at := some 0, total_idle := some 0,
    last_idle := some 0, running_time := some 0 }

/-- An orchestrator state with one `STARTING` VM whose pending auth
token is `"a"`. -/
def stPending1 : OrchState :=
  { vms := [vmStarting1], pending_auth := [("a", "1")], vms_by_nodename := [],
    jobs := [], candidates := ∅, vmid_counter := 1, last_update := 0 }

/-- The orchestrator state right after `Orchestrator.__init__`. -/
def stEmpty : OrchState :=
  { vms := [], pending_auth := [], vms_by_nodename := [], jobs := [],
    candidates := ∅, vmid_counter := 0, last_update := 0 }

/-- A `READY` VM with no jobs, as used in idle-counter instances. -/
def vmReady1 : VmInfoRec :=
  { vmid := "1", state := VmState.READY, bill := 0, jobs := ∅,
    auth := some "a", nodename := some "vm-1", started_at := some 0,
    ready_at := some 1, total_idle := some 0, last_idle := some 0,
    running_time := some 0 }

/-- Replay jobs: submitted at time 0, with durations 1, 2 and 100.  At
time 10 the first two have terminated and they are adjacent in the
queue. -/
def rjob1 : RJob := { jobid := "1", submitted_at := 0, duration := 1 }

/-- Second replay job (see `rjob1`). -/
def rjob2 : RJob := { jobid := "2", submitted_at := 0, duration := 2 }

/-- Third replay job (see `rjob1`). -/
def rjob3 : RJob := { jobid := "3", submitted_at := 0, duration := 100 }

/-- A fresh `JobsFromFile` state holding the three replay jobs. -/
def replayState1 : ReplayState :=
  { future_jobs := [rjob1, rjob2, rjob3], time_last_checked := 0, jobs := [] }

/-- The record produced by `VmInfo(vmid='7')`: all defaults. -/
def vmDefault7 : VmInfoRec :=
  { vmid := "7", state := VmState.DOWN, bill := 0, jobs := ∅ }

/-- The record produced by `new_vm()` on the fresh orchestrator state
with password draw `pw`. -/
def vmNew1 : VmInfoRec :=
  { vmid := "1", state := VmState.STARTING, bill := 0, jobs := ∅,
    auth := some "pw", total_idle := some 0, last_idle := some 0,
    running_time := some 0 }

/-- `vmStarting1` promoted to `READY` as node `host1` at time 5. -/
def vmReadyHost1 : VmInfoRec :=
  { vmStarting1 with state := VmState.READY
                     ready_at := some 5
                     nodename := some "host1" }

/-- The state after a successful `vm_is_ready(auth='a', nodename='host1')`
call against `stPending1`, at time 5. -/
def stPending1Ready : OrchState :=
  { vms := [vmReadyHost1],
    pending_auth := [], vms_by_nodename := [("host1", "1")], jobs := [],
    candidates := ∅, vmid_counter := 1, last_update := 0 }

/-- `vmReady1` after one book-keeping pass with `elapsed = 3`. -/
def vmIdle3 : VmInfoRec :=
  { vmReady1 with running_time := some 3, total_idle := some 3,
                  last_idle := some 3 }

/-- `vmReady1` holding one job. -/
def vmBusy1 : VmInfoRec :=
  { vmReady1 with jobs := {"j1"} }

/-- `vmBusy1` after one book-keeping pass with `elapsed = 3`. -/
def vmBusy3 : VmInfoRec :=
  { vmBusy1 with running_time := some 3, last_idle := some 0 }

/-- A RUNNING job executing on node `vm-1`, fresh since the last update. -/
def jobRunning1 : JobInfo :=
  { jobid := "j1", state := JobState.RUNNING, running_at := some 1,
    exec_node_name := some "vm-1" }

/-- A state whose job table holds `jobRunning1`, with a `READY` VM named
`vm-1` holding it, and `j1` also a cloud candidate. -/
def stJobs1 : OrchState :=
  { vms := [{ vmReady1 with jobs := {"j1"} }],
    pending_auth := [], vms_by_nodename := [("vm-1", "1")],
    jobs := [jobRunning1], candidates := {"j1"}, vmid_counter := 1,
    last_update := 2 }

/-- `stJobs1` after `update_job_status` against an empty snapshot at
time 5: job `j1` has terminated everywhere. -/
def stJobs1After : OrchState :=
  { vms := [vmReady1], pending_auth := [], vms_by_nodename := [("vm-1", "1")],
    jobs := [], candidates := ∅, vmid_counter := 1, last_update := 5 }

/-- The first VM started by the cycle of `stCycle2`. -/
def vmCycleA : VmInfoRec :=
  { vmid := "1", state := VmState.STARTING, bill := 0, jobs := ∅,
    auth := some "p1", started_at := some 10, total_idle := some 0,
    last_idle := some 0, running_time := some 0 }

/-- The second VM started by the cycle of `stCycle2`. -/
def vmCycleB : VmInfoRec :=
  { vmid := "2", state := VmState.STARTING, bill := 0, jobs := ∅,
    auth := some "p2", started_at := some 10, total_idle := some 0,
    last_idle := some 0, running_time := some 0 }

/-- The state after one cycle from `stEmpty` at time 10 with
`max_vms = 2`, a policy that always wants a new VM, and password draws
`p1`, `p2`, `p3`: two starts were dispatched. -/
def stCycle2 : OrchState :=
  { vms := [vmCycleA, vmCycleB],
    pending_auth := [("p2", "2"), ("p1", "1")], vms_by_nodename := [],
    jobs := [], candidates := ∅, vmid_counter := 2, last_update := 10 }

/-! ### Helper lemmas -/

/-- After `del d[k]`, `k` is no longer a key. -/
theorem dlookup_ddel_self {α : Type} (m : List (String × α)) (k : String) :
    dlookup (ddel m k) k = none := by
  have h : (ddel m k).find? (fun p => p.1 = k) = none := by
    rw [List.find?_eq_none]
    intro x hx
    have hmem : x ∈ m ∧ ¬ x.1 = k := by simpa [ddel] using hx
    simpa using hmem.2
  simp [dlookup, h]

/-- After `d[k] = v`, looking up `k` yields `v`. -/
theorem dlookup_dset_self {α : Type} (m : List (String × α)) (k : String) (v : α) :
    dlookup (dset m k v) k = some v := by
  simp [dlookup, dset, List.find?]

/-- A VM found in the `vms` dict carries the id it was looked up by. -/
theorem lookupVm_vmid (vms : List VmInfoRec) (vmid : String) (vm : VmInfoRec)
    (h : lookupVm vms vmid = some vm) : vm.vmid = vmid := by
  have := List.find?_some h
  simpa using this

/-- Updating every dict entry whose id is `k` makes lookup at a present
`k` return the new record. -/
theorem find_map_update (k : String) (vm' : VmInfoRec) (hv : vm'.vmid = k) :
    ∀ (vms : List VmInfoRec) (vm : VmInfoRec), lookupVm vms k = some vm →
      lookupVm (vms.map (fun w => if w.vmid = k then vm' else w)) k = some vm'
  | [], vm, h => by simp [lookupVm] at h
  | w :: ws, vm, h => by
    by_cases hw : w.vmid = k
    · simp [lookupVm, List.find?, hw, hv]
    · have htail : lookupVm ws k = some vm := by
        simpa [lookupVm, List.find?, hw] using h
      have ihr := find_map_update k vm' hv ws vm htail
      simpa [lookupVm, List.find?, hw] using ihr

/-- Re-assigning a present key of the `vms` dict makes lookup return the
new record. -/
theorem lookupVm_setVm_of_found (vms : List VmInfoRec) (k : String)
    (vm vm' : VmInfoRec) (hv : vm'.vmid = k) (h : lookupVm vms k = some vm) :
    lookupVm (setVm vms vm') k = some vm' := by
  have hfind : (vms.find? (fun w => w.vmid = vm'.vmid)).isSome = true := by
    rw [hv]
    simpa [lookupVm, Option.isSome] using congrArg Option.isSome h
  simp only [setVm]
  rw [if_pos hfind, hv]
  exact find_map_update k vm' hv vms vm h

/-! ### C6, C7, C8 -/

/-- C6: the claim says the provider refresh maps the libcloud node
status `running` to core state `READY` (and pending/rebooting to
STARTING, terminated to DOWN, unknown to OTHER).  The code instead maps
`running` to `VmInfo.UP`, an attribute `VmInfo` does not define, so the
mapping dict cannot even be built: every call of
`_vminfo_state_from_libcloud_status` raises `AttributeError` instead of
returning a state word, contradicting the function's own docstring. -/
theorem libcloudStatus_running_not_ready :
    vminfoStateFromLibcloudStatus NodeState.RUNNING = none ∧
    ¬ vminfoStateFromLibcloudStatus NodeState.RUNNING = some VmState.READY ∧
    vmInfoStateWord "UP" = none ∧
    (∀ s, vminfoStateFromLibcloudStatus s = none) :=
  ⟨rfl, by decide, rfl, fun s => by cases s <;> rfl⟩

/-- C7: the claim says the replay snapshot contains no job whose
termination time `submitted_at + duration` is earlier than `now`, even
when several terminated jobs are adjacent in the internal list.  The
removal loop deletes from the list it is iterating over, so of two
adjacent terminated jobs the second is skipped: at time 10, with
`rjob1` and `rjob2` both terminated and adjacent, the returned queue
still contains `rjob2`, contradicting the loop's stated purpose
("remove jobs that have terminated"). -/
theorem get_sched_info_keeps_adjacent_terminated :
    (get_sched_info 10 replayState1).map (fun r => r.1) = some [rjob2, rjob3] ∧
    rjob2.submitted_at + rjob2.duration < 10 := by decide

/-- C8: the claim says constructing a `VmInfo` with any of the six
enumerated states succeeds, in particular with `DRAINING`.  The
constructor's assertion list omits `DRAINING`, so
`VmInfo(vmid='1', state=VmInfo.DRAINING)` raises `AssertionError`
although the class docstring lists DRAINING as a valid state and
`update_job_status` treats DRAINING VMs as active; the other five
states are accepted. -/
theorem vmInfoInit_rejects_draining :
    vmInfoInit { vmid := some "1", state := some VmState.DRAINING } = none ∧
    (vmInfoInit { vmid := some "1", state := some VmState.STARTING }).isSome = true ∧
    (vmInfoInit { vmid := some "1", state := some VmState.READY }).isSome = true ∧
    (vmInfoInit { vmid := some "1", state := some VmState.STOPPING }).isSome = true ∧
    (vmInfoInit { vmid := some "1", state := some VmState.DOWN }).isSome = true ∧
    (vmInfoInit { vmid := some "1", state := some VmState.OTHER }).isSome = true := by
  decide

/-! ### C10 -/

/-- C10: a `VmInfo` constructed directly with no explicit `state` gets
state `DOWN` (not `STARTING`); with no explicit `jobs` or `bill`, an
empty job set and bill `0.0`.  The `STARTING` default is applied only by
`Orchestrator.new_vm`, which also defaults `total_idle`, `last_idle`
and `running_time` to `0`. -/
theorem vmInfoInit_and_new_vm_defaults :
    (∀ attrs vm, vmInfoInit attrs = some vm → attrs.state = none →
        vm.state = VmState.DOWN) ∧
    (∀ attrs vm, vmInfoInit attrs = some vm → attrs.jobs = none →
        vm.jobs = ∅) ∧
    (∀ attrs vm, vmInfoInit attrs = some vm → attrs.bill = none →
        vm.bill = 0) ∧
    (∀ st draws vm st' draws', new_vm st draws = some (vm, st', draws') →
        vm.state = VmState.STARTING ∧ vm.total_idle = some 0 ∧
        vm.last_idle = some 0 ∧ vm.running_time = some 0) := by
  refine ⟨?_, ?_, ?_, ?_⟩
  · intro attrs vm h hst
    cases hid : attrs.vmid with
    | none => simp [vmInfoInit, hid] at h
    | some v =>
      rw [vmInfoInit, hid, hst] at h
      simp at h
      rw [← h]
  · intro attrs vm h hjobs
    cases hid : attrs.vmid with
    | none => simp [vmInfoInit, hid] at h
    | some v =>
      rw [vmInfoInit, hid] at h
      cases hst : attrs.state with
      | none =>
        rw [hst] at h
        simp at h
        rw [← h, hjobs]
        rfl
      | some s =>
        rw [hst] at h
        by_cases hmem : s ∈ [VmState.STARTING, VmState.READY, VmState.STOPPING,
            VmState.DOWN, VmState.OTHER]
        · simp only [hmem, if_true] at h
          simp at h
          rw [← h, hjobs]
          rfl
        · simp [hmem] at h
  · intro attrs vm h hbill
    cases hid : attrs.vmid with
    | none => simp [vmInfoInit, hid] at h
    | some v =>
      rw [vmInfoInit, hid] at h
      cases hst : attrs.state with
      | none =>
        rw [hst] at h
        simp at h
        rw [← h, hbill]
        rfl
      | some s =>
        rw [hst] at h
        by_cases hmem : s ∈ [VmState.STARTING, VmState.READY, VmState.STOPPING,
            VmState.DOWN, VmState.OTHER]
        · simp only [hmem, if_true] at h
          simp at h
          rw [← h, hbill]
          rfl
        · simp [hmem] at h
  · intro st draws vm st' draws' h
    rw [new_vm] at h
    cases hpick : pickAuth st.pending_auth draws with
    | none => rw [hpick] at h; simp at h
    | some pr =>
      rw [hpick] at h
      simp only [vmInfoInit] at h
      simp at h
      obtain ⟨hvm, _, _⟩ := h
      rw [← hvm]
      exact ⟨rfl, rfl, rfl, rfl⟩

/-- C10 witness: the defaults evaluated on the concrete attribute bag
`VmInfo(vmid='7')` and on a concrete `new_vm()` call. -/
theorem vmInfoInit_and_new_vm_defaults_witness :
    vmDefault7.state = VmState.DOWN ∧ vmDefault7.jobs = ∅ ∧ vmDefault7.bill = 0 ∧
    vmNew1.state = VmState.STARTING ∧ vmNew1.total_idle = some 0 ∧
    vmNew1.last_idle = some 0 ∧ vmNew1.running_time = some 0 :=
  ⟨vmInfoInit_and_new_vm_defaults.1 { vmid := some "7" } vmDefault7 (by decide) rfl,
   vmInfoInit_and_new_vm_defaults.2.1 { vmid := some "7" } vmDefault7 (by decide) rfl,
   vmInfoInit_and_new_vm_defaults.2.2.1 { vmid := some "7" } vmDefault7 (by decide) rfl,
   vmInfoInit_and_new_vm_defaults.2.2.2 stEmpty ["pw"] vmNew1
     { stEmpty with vmid_counter := 1 } [] (by decide)⟩

/-! ### C4 -/

/-- C4 counterexample: the claim says a valid `vm_is_ready(auth,
hostname)` stores the hostname with its DNS suffix stripped.  Calling it
with hostname `vm-1.example.com` stores the nodename exactly as given:
`vm-1.example.com`, not the stripped `vm-1` (the stripping happens in
the web handler, before `vm_is_ready` is invoked). -/
theorem vm_is_ready_stores_unstripped_hostname :
    ((vm_is_ready 5 "a" "vm-1.example.com" stPending1).bind
      (fun r => (lookupVm r.2.vms "1").map (fun vm => (r.1, vm.nodename)))) =
      some (true, some "vm-1.example.com") ∧
    nodenameOfHostname "vm-1.example.com" = "vm-1" ∧
    some "vm-1.example.com" ≠ some (nodenameOfHostname "vm-1.example.com") := by
  decide

/-- C4 (amended): for a call `vm_is_ready(auth, hostname)` with `auth`
pending and referencing a managed `STARTING` VM, the call returns `True`
and afterwards the VM is `READY` with `ready_at` the current time and
`nodename` the hostname argument exactly as given (its DNS suffix is
stripped by the web handler before the call, not here); the
nodename-to-VM mapping is registered (overwriting any previous binding
of that nodename) and the auth token is removed from the pending map. -/
theorem vm_is_ready_known_auth (now : Int) (auth hostname vmid : String)
    (vm : VmInfoRec) (st : OrchState)
    (hp : dlookup st.pending_auth auth = some vmid)
    (hv : lookupVm st.vms vmid = some vm)
    (hs : vm.state = VmState.STARTING) :
    (vm_is_ready now auth hostname st).isSome = true ∧
    (∀ r, vm_is_ready now auth hostname st = some r →
      r.1 = true ∧
      lookupVm r.2.vms vmid =
        some { vm with state := VmState.READY, ready_at := some now,
                       nodename := some hostname } ∧
      dlookup r.2.vms_by_nodename hostname = some vmid ∧
      dlookup r.2.pending_auth auth = none) := by
  have hrun : vm_is_ready now auth hostname st =
      some (true,
        { st with
            vms := setVm st.vms
              { vm with state := VmState.READY, ready_at := some now,
                        nodename := some hostname }
            pending_auth := ddel st.pending_auth auth
            vms_by_nodename := dset st.vms_by_nodename hostname vmid }) := by
    simp [vm_is_ready, hp, hv, hs]
  refine ⟨by rw [hrun]; rfl, ?_⟩
  intro r hr
  rw [hrun] at hr
  cases hr
  have hvmid : vm.vmid = vmid := lookupVm_vmid st.vms vmid vm hv
  refine ⟨rfl, ?_, ?_, ?_⟩
  · exact lookupVm_setVm_of_found st.vms vmid vm
      { vm with state := VmState.READY, ready_at := some now,
                nodename := some hostname } hvmid hv
  · exact dlookup_dset_self _ _ _
  · exact dlookup_ddel_self _ _

/-- C4 witness: the amended theorem applied to the concrete state
`stPending1`, auth `a`, hostname `host1`, at time 5. -/
theorem vm_is_ready_known_auth_witness :
    lookupVm stPending1Ready.vms "1" = some vmReadyHost1 ∧
    dlookup stPending1Ready.vms_by_nodename "host1" = some "1" ∧
    dlookup stPending1Ready.pending_auth "a" = none := by
  have h := (vm_is_ready_known_auth 5 "a" "host1" "1" vmStarting1 stPending1
      (by decide) (by decide) (by decide)).2 (true, stPending1Ready) (by decide)
  exact ⟨by decide, h.2.2.1, h.2.2.2⟩

/-! ### C1 -/

/-- C1 counterexample: the claim says a request whose auth token is
unknown never receives a `200 "OK"` response (it should get a 400).  A
request with both parameters present and an unknown auth token gets
exactly `200 "OK"`: the handler ignores the boolean result of
`vm_is_ready`. -/
theorem readyEndpoint_unknown_auth_200 :
    readyEndpoint 0 [("auth", "XYZ"), ("hostname", "vm-99")] stEmpty =
      some (⟨200, "OK"⟩, stEmpty) ∧
    dlookup stEmpty.pending_auth "XYZ" = none := by decide

/-- C1 (amended): the ready endpoint responds 400 with an error message
when the `auth` or `hostname` parameter is missing; when both are
present it responds `200 "OK"` whether or not the auth token is known —
the boolean result of `vm_is_ready` is ignored — and with an unknown
token the state is unchanged. -/
theorem readyEndpoint_behaviour (now : Int) (params : List (String × String))
    (st : OrchState) :
    (dlookup params "auth" = none →
      readyEndpoint now params st =
        some (⟨400, "ERROR: Missing required parameter auth"⟩, st)) ∧
    (∀ auth, dlookup params "auth" = some auth →
      dlookup params "hostname" = none →
      readyEndpoint now params st =
        some (⟨400, "ERROR: Missing required parameter hostname"⟩, st)) ∧
    (∀ auth hostname, dlookup params "auth" = some auth →
      dlookup params "hostname" = some hostname →
      dlookup st.pending_auth auth = none →
      readyEndpoint now params st = some (⟨200, "OK"⟩, st)) ∧
    (∀ auth hostname b st', dlookup params "auth" = some auth →
      dlookup params "hostname" = some hostname →
      vm_is_ready now auth (nodenameOfHostname hostname) st = some (b, st') →
      readyEndpoint now params st = some (⟨200, "OK"⟩, st')) := by
  refine ⟨?_, ?_, ?_, ?_⟩
  · intro ha
    simp [readyEndpoint, ha]
  · intro auth ha hh
    simp [readyEndpoint, ha, hh]
  · intro auth hostname ha hh hp
    have hfalse : vm_is_ready now auth (nodenameOfHostname hostname) st =
        some (false, st) := by
      simp [vm_is_ready, hp]
    simp [readyEndpoint, ha, hh, hfalse]
  · intro auth hostname b st' ha hh hr
    simp [readyEndpoint, ha, hh, hr]

/-- C1 witness: the amended endpoint behaviour evaluated on concrete
requests against `stEmpty` and `stPending1`. -/
theorem readyEndpoint_behaviour_witness :
    readyEndpoint 0 [("hostname", "h")] stEmpty =
      some (⟨400, "ERROR: Missing required parameter auth"⟩, stEmpty) ∧
    readyEndpoint 0 [("auth", "a")] stEmpty =
      some (⟨400, "ERROR: Missing required parameter hostname"⟩, stEmpty) ∧
    readyEndpoint 0 [("auth", "XYZ"), ("hostname", "h")] stEmpty =
      some (⟨200, "OK"⟩, stEmpty) ∧
    readyEndpoint 5 [("auth", "a"), ("hostname", "host1.example.com")] stPending1 =
      some (⟨200, "OK"⟩, stPending1Ready) :=
  ⟨(readyEndpoint_behaviour 0 [("hostname", "h")] stEmpty).1 (by decide),
   (readyEndpoint_behaviour 0 [("auth", "a")] stEmpty).2.1 "a" (by decide) (by decide),
   (readyEndpoint_behaviour 0 [("auth", "XYZ"), ("hostname", "h")] stEmpty).2.2.1
     "XYZ" "h" (by decide) (by decide) (by decide),
   (readyEndpoint_behaviour 5 [("auth", "a"), ("hostname", "host1.example.com")]
       stPending1).2.2.2 "a" "host1.example.com" true stPending1Ready
     (by decide) (by decide) (by decide)⟩

/-! ### C3 -/

/-- When the auth token is not pending, any sequence of `vm_is_ready`
calls with it returns `False` every time and never changes the state. -/
theorem readyCalls_no_pending (now : Int) (auth : String) (hs : List String)
    (st : OrchState) (h : dlookup st.pending_auth auth = none) :
    readyCalls now auth hs st = some (0, st) := by
  induction hs with
  | nil => rfl
  | cons x xs ih => simp [readyCalls, vm_is_ready, h, ih]

/-- A successful first call followed by calls whose auth token is no
longer pending yields exactly one `True`. -/
theorem readyCalls_succ (now : Int) (auth x : String) (xs : List String)
    (st st1 : OrchState)
    (h1 : vm_is_ready now auth x st = some (true, st1))
    (h2 : dlookup st1.pending_auth auth = none) :
    readyCalls now auth (x :: xs) st = some (1, st1) := by
  simp [readyCalls, h1, readyCalls_no_pending now auth xs st1 h2]

/-- C3: a `vm_is_ready` call whose auth token is unknown returns `False`
and leaves the whole orchestrator state unchanged; and for a state in
which the token, if pending, references a managed `STARTING` VM, any
sequence of `vm_is_ready` calls with that same token succeeds at most
once — the first valid call pops the token from `_pending_auth`, so
every later call takes the unknown-auth branch. -/
theorem vm_is_ready_unknown_auth_and_once (now : Int) (auth : String)
    (st : OrchState) :
    (dlookup st.pending_auth auth = none →
      ∀ hostname, vm_is_ready now auth hostname st = some (false, st)) ∧
    (pendingStartingOk st auth = true →
      ∀ hostnames, (readyCalls now auth hostnames st).isSome = true ∧
        ∀ n st', readyCalls now auth hostnames st = some (n, st') → n ≤ 1) := by
  constructor
  · intro h hostname
    simp [vm_is_ready, h]
  · intro hok hostnames
    cases hp : dlookup st.pending_auth auth with
    | none =>
      rw [readyCalls_no_pending now auth hostnames st hp]
      exact ⟨rfl, fun n st' h => by simp at h; omega⟩
    | some vmid =>
      have hok' := hok
      simp only [pendingStartingOk, hp] at hok'
      cases hlv : lookupVm st.vms vmid with
      | none =>
        rw [hlv] at hok'
        exact absurd hok' (by simp)
      | some vm =>
        rw [hlv] at hok'
        have hs2 : vm.state = VmState.STARTING := by simpa using hok'
        cases hostnames with
        | nil => exact ⟨rfl, fun n st' h => by simp [readyCalls] at h; omega⟩
        | cons x xs =>
          have hcall : vm_is_ready now auth x st =
              some (true,
                { st with
                    vms := setVm st.vms
                      { vm with state := VmState.READY, ready_at := some now,
                                nodename := some x }
                    pending_auth := ddel st.pending_auth auth
                    vms_by_nodename := dset st.vms_by_nodename x vmid }) := by
            simp [vm_is_ready, hp, hlv, hs2]
          have hres := readyCalls_succ now auth x xs st _ hcall
            (dlookup_ddel_self _ _)
          rw [hres]
          exact ⟨rfl, fun n st' h => by simp at h; omega⟩

/-- C3 witness: the theorem applied to the unknown token `zz` on the
empty state, and to the sequence of two calls with token `a` against
`stPending1` — the second call finds the token consumed. -/
theorem vm_is_ready_unknown_auth_and_once_witness :
    vm_is_ready 0 "zz" "h" stEmpty = some (false, stEmpty) ∧
    (readyCalls 5 "a" ["host1", "host1"] stPending1).isSome = true ∧
    1 ≤ 1 :=
  ⟨(vm_is_ready_unknown_auth_and_once 0 "zz" stEmpty).1 (by decide) "h",
   ((vm_is_ready_unknown_auth_and_once 5 "a" stPending1).2 (by decide)
     ["host1", "host1"]).1,
   ((vm_is_ready_unknown_auth_and_once 5 "a" stPending1).2 (by decide)
     ["host1", "host1"]).2 1 stPending1Ready (by decide)⟩

/-! ### C9 -/

/-- The idle-counter fields of the VM produced by one book-keeping pass:
with an empty job set both counters grow by `elapsed`; with a non-empty
one `last_idle` is reset to `0`. -/
theorem gcVm_idle_fields (stopOk : String → Bool) (now e timeout : Int)
    (vm vm' : VmInfoRec) (h : gcVm stopOk now e timeout vm = some (some vm')) :
    vm'.total_idle = (if vm.jobs = ∅ then vm.total_idle.map (fun t => t + e)
                      else vm.total_idle) ∧
    vm'.last_idle = (if vm.jobs = ∅ then vm.last_idle.map (fun t => t + e)
                     else some 0) := by
  by_cases hj : vm.jobs = ∅ <;>
    cases hst : vm.state <;>
      cases hti : vm.total_idle <;> cases hli : vm.last_idle <;>
        cases hsa : vm.started_at <;> cases hrt : vm.running_time <;>
          simp only [gcVm, do_stop_vm, hst, hti, hli, hsa, hrt, hj] at h <;>
            simp_all <;>
            first
              | (subst h; simp)
              | (split at h <;> (subst h; simp))
              | (split at h <;> ((try split at h) <;> (subst h; simp)))

/-- One book-keeping pass on a `READY` VM with no jobs and all counters
present: the VM stays managed, `running_time`, `total_idle` and
`last_idle` each grow by `elapsed`. -/
theorem gcVm_ready (stopOk : String → Bool) (now e timeout : Int)
    (vm : VmInfoRec) (ti li rt : Int)
    (hst : vm.state = VmState.READY) (hj : vm.jobs = ∅)
    (hti : vm.total_idle = some ti) (hli : vm.last_idle = some li)
    (hrt : vm.running_time = some rt) :
    gcVm stopOk now e timeout vm =
      some (some { vm with running_time := some (rt + e),
                           total_idle := some (ti + e),
                           last_idle := some (li + e) }) := by
  simp [gcVm, hst, hj, hti, hli, hrt]

/-- C9: in each cycle, a managed VM that is not removed as DOWN has
`elapsed` added to both `total_idle` and `last_idle` when its job set is
empty, and `last_idle` reset to `0` when it is not; consequently a
`READY` VM whose job set stays empty over consecutive cycles of total
elapsed `Δ = es.sum` ends with `last_idle = last_idle₀ + Δ ≥ Δ`
(when `last_idle₀ ≥ 0`). -/
theorem idle_counters (stopOk : String → Bool) (now timeout : Int) :
    (∀ e vm vm', gcVm stopOk now e timeout vm = some (some vm') →
        vm.jobs = ∅ →
        vm'.total_idle = vm.total_idle.map (fun t => t + e) ∧
        vm'.last_idle = vm.last_idle.map (fun t => t + e)) ∧
    (∀ e vm vm', gcVm stopOk now e timeout vm = some (some vm') →
        vm.jobs ≠ ∅ → vm'.last_idle = some 0) ∧
    (∀ es (vm : VmInfoRec) ti li rt, vm.state = VmState.READY →
        vm.jobs = ∅ → vm.total_idle = some ti → vm.last_idle = some li →
        vm.running_time = some rt →
        (gcIter stopOk now timeout es vm).map (fun v => v.last_idle) =
          some (some (li + es.sum)) ∧
        (0 ≤ li → es.sum ≤ li + es.sum)) := by
  refine ⟨?_, ?_, ?_⟩
  · intro e vm vm' h hj
    have hf := gcVm_idle_fields stopOk now e timeout vm vm' h
    rw [if_pos hj] at hf
    rw [if_pos hj] at hf
    exact hf
  · intro e vm vm' h hj
    have hf := (gcVm_idle_fields stopOk now e timeout vm vm' h).2
    rw [if_neg hj] at hf
    exact hf
  · intro es
    induction es with
    | nil =>
      intro vm ti li rt hst hj hti hli hrt
      constructor
      · simp [gcIter, hli]
      · intro h0
        simpa using h0
    | cons e es ih =>
      intro vm ti li rt hst hj hti hli hrt
      have hgc := gcVm_ready stopOk now e timeout vm ti li rt hst hj hti hli hrt
      have step : gcIter stopOk now timeout (e :: es) vm =
          gcIter stopOk now timeout es
            { vm with running_time := some (rt + e), total_idle := some (ti + e),
                      last_idle := some (li + e) } := by
        simp [gcIter, hgc]
      have hrec := ih
        { vm with running_time := some (rt + e), total_idle := some (ti + e),
                  last_idle := some (li + e) }
        (ti + e) (li + e) (rt + e) hst hj rfl rfl rfl
      constructor
      · rw [step, hrec.1]
        have harith : li + e + es.sum = li + (e :: es).sum := by
          rw [List.sum_cons]
          ring
        rw [harith]
      · intro h0
        have : (0 : Int) ≤ es.sum + e → es.sum + e ≤ li + (es.sum + e) := by omega
        rw [List.sum_cons]
        omega

/-- C9 witness: the theorem applied to `vmReady1` (idle: counters grow
by 3), to `vmBusy1` (holding a job: `last_idle` reset to 0), and
iterated over two cycles of elapsed 3 and 4. -/
theorem idle_counters_witness :
    vmIdle3.total_idle = vmReady1.total_idle.map (fun t => t + 3) ∧
    vmIdle3.last_idle = vmReady1.last_idle.map (fun t => t + 3) ∧
    vmBusy3.last_idle = some 0 ∧
    (gcIter (fun _ => true) 10 600 [3, 4] vmReady1).map (fun v => v.last_idle) =
      some (some (0 + [3, 4].sum)) ∧
    ([3, 4] : List Int).sum ≤ 0 + [3, 4].sum :=
  ⟨((idle_counters (fun _ => true) 10 600).1 3 vmReady1 vmIdle3
      (by decide) (by decide)).1,
   ((idle_counters (fun _ => true) 10 600).1 3 vmReady1 vmIdle3
      (by decide) (by decide)).2,
   (idle_counters (fun _ => true) 10 600).2.1 3 vmBusy1 vmBusy3
      (by decide) (by decide),
   ((idle_counters (fun _ => true) 10 600).2.2 [3, 4] vmReady1 0 0 0
      rfl rfl rfl rfl rfl).1,
   ((idle_counters (fun _ => true) 10 600).2.2 [3, 4] vmReady1 0 0 0
      rfl rfl rfl rfl rfl).2 (by decide)⟩

/-! ### C5 -/

/-- An id belongs to `terminated` exactly when it is in the upserted
table but not in the snapshot. -/
theorem mem_terminatedIds (jobs1 cur : List JobInfo) (i : String) :
    i ∈ terminatedIds jobs1 cur ↔
      i ∈ jobs1.map (fun j => j.jobid) ∧ i ∉ cur.map (fun j => j.jobid) := by
  simp [terminatedIds, List.mem_filter]

/-- The upsert loop only adds entries: every id present before is
present after. -/
theorem upsertJobs_mem_ids (lu : Int) :
    ∀ (cur jobs out : List JobInfo), upsertJobs lu jobs cur = some out →
      ∀ i, i ∈ jobs.map (fun j => j.jobid) → i ∈ out.map (fun j => j.jobid)
  | [], jobs, out, h, i, hi => by
    rw [upsertJobs] at h
    cases h
    exact hi
  | j :: rest, jobs, out, h, i, hi => by
    rw [upsertJobs] at h
    by_cases hdup : (jobs.find? (fun q => q.jobid = j.jobid)).isSome
    · rw [if_pos hdup] at h
      exact absurd h (by simp)
    · rw [if_neg hdup] at h
      by_cases hok : freshJobTimeOk lu j = true
      · rw [if_pos hok] at h
        refine upsertJobs_mem_ids lu rest (jobs ++ [j]) out h i ?_
        simpa using Or.inl hi
      · rw [if_neg hok] at h
        exact absurd h (by simp)

/-- The terminated-job removal loop only removes: its outputs are
contained in its inputs. -/
theorem removeFinishedJobs_shrinks :
    ∀ (term : List String) (jobs : List JobInfo) (cands : Finset String)
      (out : List JobInfo × Finset String),
      removeFinishedJobs jobs cands term = some out →
      (∀ j ∈ out.1, j ∈ jobs) ∧ out.2 ⊆ cands
  | [], jobs, cands, out, h => by
    rw [removeFinishedJobs] at h
    cases h
    exact ⟨fun j hj => hj, fun x hx => hx⟩
  | i :: is, jobs, cands, out, h => by
    rw [removeFinishedJobs] at h
    cases hf : jobs.find? (fun q => q.jobid = i) with
    | none => rw [hf] at h; exact absurd h (by simp)
    | some j =>
      simp only [hf] at h
      by_cases hok : terminatedJobOk j = true
      · rw [if_pos hok] at h
        have ih := removeFinishedJobs_shrinks is _ _ out h
        refine ⟨fun q hq => ?_, fun x hx => ?_⟩
        · exact (List.mem_filter.mp (ih.1 q hq)).1
        · exact Finset.mem_of_mem_erase (ih.2 hx)
      · rw [if_neg hok] at h
        exact absurd h (by simp)

/-- Every id processed by the terminated-job removal loop is afterwards
absent from the job table and from the candidate set. -/
theorem removeFinishedJobs_removes :
    ∀ (term : List String) (jobs : List JobInfo) (cands : Finset String)
      (out : List JobInfo × Finset String),
      removeFinishedJobs jobs cands term = some out →
      ∀ i ∈ term, (∀ j ∈ out.1, j.jobid ≠ i) ∧ i ∉ out.2
  | [], jobs, cands, out, h, i, hi => absurd hi (by simp)
  | t :: ts, jobs, cands, out, h, i, hi => by
    rw [removeFinishedJobs] at h
    cases hf : jobs.find? (fun q => q.jobid = t) with
    | none => rw [hf] at h; exact absurd h (by simp)
    | some j =>
      simp only [hf] at h
      by_cases hok : terminatedJobOk j = true
      · rw [if_pos hok] at h
        rcases List.mem_cons.mp hi with rfl | hits
        · have hsub := removeFinishedJobs_shrinks ts _ _ out h
          refine ⟨fun q hq => ?_, fun hx => ?_⟩
          · have := List.mem_filter.mp (hsub.1 q hq)
            simpa using this.2
          · exact absurd (hsub.2 hx) (Finset.not_mem_erase i cands)
        · exact removeFinishedJobs_removes ts _ _ out h i hits
      · rw [if_neg hok] at h
        exact absurd h (by simp)

/-- The running/pending loop never re-introduces an id that is not the
id of the processed job: the job table is untouched and an id absent
from `candidates` and from every active VM's job set stays absent. -/
theorem processJob_preserves (isCand : JobInfo → Bool) (lu : Int)
    (st st' : OrchState) (j : JobInfo) (i : String)
    (h : processJob isCand lu st j = some st')
    (hne : j.jobid ≠ i)
    (hc : i ∉ st.candidates)
    (hv : ∀ vm ∈ st.vms,
      (vm.state = VmState.READY ∨ vm.state = VmState.DRAINING) → i ∉ vm.jobs) :
    st'.jobs = st.jobs ∧ i ∉ st'.candidates ∧
    (∀ vm ∈ st'.vms,
      (vm.state = VmState.READY ∨ vm.state = VmState.DRAINING) → i ∉ vm.jobs) := by
  rw [processJob] at h
  by_cases hR : j.state = JobState.RUNNING
  · rw [if_pos hR] at h
    cases hra : j.running_at with
    | none => simp [hra] at h
    | some ra =>
      simp only [hra] at h
      by_cases hfresh : ra > lu
      · rw [if_pos hfresh] at h
        cases henn : j.exec_node_name with
        | none => simp [henn] at h
        | some enn =>
          simp only [henn] at h
          cases hdl : dlookup st.vms_by_nodename enn with
          | some vmid =>
            simp only [hdl] at h
            cases h
            refine ⟨rfl, fun hmem => hc (Finset.mem_of_mem_erase hmem), ?_⟩
            intro vm hvm hstate
            obtain ⟨w, hw, rfl⟩ := List.mem_map.mp hvm
            by_cases hwv : w.vmid = vmid
            · rw [if_pos hwv] at hstate ⊢
              have hwj : i ∉ w.jobs := hv w hw (by simpa using hstate)
              simp only [Finset.mem_insert]
              rintro (rfl | hin)
              · exact hne rfl
              · exact hwj hin
            · rw [if_neg hwv] at hstate ⊢
              exact hv w hw hstate
          | none =>
            simp only [hdl] at h
            cases h
            exact ⟨rfl, fun hmem => hc (Finset.mem_of_mem_erase hmem), hv⟩
      · rw [if_neg hfresh] at h
        cases h
        exact ⟨rfl, hc, hv⟩
  · rw [if_neg hR] at h
    by_cases hP : j.state = JobState.PENDING
    · rw [if_pos hP] at h
      cases hsa : j.submitted_at with
      | none => simp [hsa] at h
      | some sa =>
        simp only [hsa] at h
        by_cases hfresh : sa > lu
        · rw [if_pos hfresh] at h
          by_cases hic : isCand j = true
          · rw [if_pos hic] at h
            by_cases hmem : j.jobid ∈ st.candidates
            · rw [if_pos hmem] at h
              simp at h
            · rw [if_neg hmem] at h
              cases h
              refine ⟨rfl, ?_, hv⟩
              simp only [Finset.mem_insert]
              rintro (rfl | hin)
              · exact hne rfl
              · exact hc hin
          · rw [if_neg hic] at h
            cases h
            exact ⟨rfl, hc, hv⟩
        · rw [if_neg hfresh] at h
          cases h
          exact ⟨rfl, hc, hv⟩
    · rw [if_neg hP] at h
      cases h
      exact ⟨rfl, hc, hv⟩

/-- Fold of `processJob_preserves` over the whole job table. -/
theorem processJobs_preserves (isCand : JobInfo → Bool) (lu : Int) (i : String) :
    ∀ (js : List JobInfo) (st st' : OrchState),
      processJobs isCand lu st js = some st' →
      (∀ j ∈ js, j.jobid ≠ i) →
      i ∉ st.candidates →
      (∀ vm ∈ st.vms,
        (vm.state = VmState.READY ∨ vm.state = VmState.DRAINING) → i ∉ vm.jobs) →
      st'.jobs = st.jobs ∧ i ∉ st'.candidates ∧
      (∀ vm ∈ st'.vms,
        (vm.state = VmState.READY ∨ vm.state = VmState.DRAINING) → i ∉ vm.jobs)
  | [], st, st', h, hjs, hc, hv => by
    rw [processJobs] at h
    cases h
    exact ⟨rfl, hc, hv⟩
  | j :: js, st, st', h, hjs, hc, hv => by
    rw [processJobs] at h
    cases hpj : processJob isCand lu st j with
    | none => rw [hpj] at h; exact absurd h (by simp)
    | some st1 =>
      simp only [hpj] at h
      have h1 := processJob_preserves isCand lu st st1 j i hpj
        (hjs j (by simp)) hc hv
      have h2 := processJobs_preserves isCand lu i js st1 st' h
        (fun q hq => hjs q (by simp [hq])) h1.2.1 h1.2.2
      exact ⟨h2.1.trans h1.1, h2.2.1, h2.2.2⟩

/-- C5: after a completed `update_job_status`, every job id that was in
the table before the call and is absent from the snapshot is deleted
from the table, absent from `candidates`, and absent from the `jobs`
set of every VM in state `READY` or `DRAINING`. -/
theorem update_job_status_removes_terminated (isCand : JobInfo → Bool)
    (cur : List JobInfo) (now : Int) (st st' : OrchState)
    (h : update_job_status isCand cur now st = some st') :
    ∀ jid, jid ∈ st.jobs.map (fun j => j.jobid) →
      jid ∉ cur.map (fun j => j.jobid) →
      (∀ j ∈ st'.jobs, j.jobid ≠ jid) ∧ jid ∉ st'.candidates ∧
      (∀ vm ∈ st'.vms,
        (vm.state = VmState.READY ∨ vm.state = VmState.DRAINING) →
        jid ∉ vm.jobs) := by
  intro jid hold hncur
  rw [update_job_status] at h
  cases hu : upsertJobs st.last_update st.jobs cur with
  | none => rw [hu] at h; exact absurd h (by simp)
  | some jobs1 =>
    simp only [hu] at h
    cases hr : removeFinishedJobs jobs1 st.candidates (terminatedIds jobs1 cur) with
    | none =>
      simp only [hr] at h
      exact absurd h (by simp)
    | some out =>
      obtain ⟨jobs2, cands2⟩ := out
      simp only [hr] at h
      cases hp : processJobs isCand st.last_update
          { st with jobs := jobs2, candidates := cands2,
                    vms := subtractFromActiveVms
                      (terminatedIds jobs1 cur).toFinset st.vms }
          jobs2 with
      | none =>
        simp only [hp] at h
        exact absurd h (by simp)
      | some st3 =>
        simp only [hp] at h
        cases h
        have hjid1 : jid ∈ jobs1.map (fun j => j.jobid) :=
          upsertJobs_mem_ids st.last_update cur st.jobs jobs1 hu jid hold
        have hterm : jid ∈ terminatedIds jobs1 cur :=
          (mem_terminatedIds jobs1 cur jid).mpr ⟨hjid1, hncur⟩
        have hrem := removeFinishedJobs_removes (terminatedIds jobs1 cur) jobs1
          st.candidates (jobs2, cands2) hr jid hterm
        have hvms : ∀ vm ∈ subtractFromActiveVms
            (terminatedIds jobs1 cur).toFinset st.vms,
            (vm.state = VmState.READY ∨ vm.state = VmState.DRAINING) →
            jid ∉ vm.jobs := by
          intro vm hvm hstate
          rw [subtractFromActiveVms] at hvm
          obtain ⟨w, hw, rfl⟩ := List.mem_map.mp hvm
          by_cases hws : w.state = VmState.READY ∨ w.state = VmState.DRAINING
          · rw [if_pos hws] at hstate ⊢
            simp only [Finset.mem_sdiff]
            rintro ⟨-, habs⟩
            exact habs (List.mem_toFinset.mpr hterm)
          · rw [if_neg hws] at hstate ⊢
            exact absurd hstate hws
        have hproc := processJobs_preserves isCand st.last_update jid jobs2 _ st3
          hp hrem.1 hrem.2 hvms
        refine ⟨?_, hproc.2.1, hproc.2.2⟩
        intro q hq
        have : q ∈ jobs2 := by
          have := hproc.1
          simp only [this] at hq
          exact hq
        exact hrem.1 q this

/-- C5 witness: the theorem applied to the concrete state `stJobs1`
(one RUNNING job `j1` on VM `vm-1`, also a candidate) and the empty
snapshot, from which `j1` has vanished. -/
theorem update_job_status_removes_terminated_witness :
    "j1" ∉ stJobs1After.candidates ∧ "j1" ∉ vmReady1.jobs := by
  have h := update_job_status_removes_terminated (fun _ => false) [] 5
    stJobs1 stJobs1After (by decide) "j1" (by decide) (by decide)
  exact ⟨h.2.1, h.2.2 vmReady1 (by decide) (by decide)⟩

/-! ### C2 -/

/-- The running/pending loop never adds or removes VMs. -/
theorem processJob_vms_length (isCand : JobInfo → Bool) (lu : Int)
    (st st' : OrchState) (j : JobInfo) (h : processJob isCand lu st j = some st') :
    st'.vms.length = st.vms.length := by
  rw [processJob] at h
  by_cases hR : j.state = JobState.RUNNING
  · rw [if_pos hR] at h
    cases hra : j.running_at with
    | none => simp [hra] at h
    | some ra =>
      simp only [hra] at h
      by_cases hfresh : ra > lu
      · rw [if_pos hfresh] at h
        cases henn : j.exec_node_name with
        | none => simp [henn] at h
        | some enn =>
          simp only [henn] at h
          cases hdl : dlookup st.vms_by_nodename enn with
          | some vmid =>
            simp only [hdl] at h
            cases h
            simp
          | none =>
            simp only [hdl] at h
            cases h
            rfl
      · rw [if_neg hfresh] at h
        cases h
        rfl
  · rw [if_neg hR] at h
    by_cases hP : j.state = JobState.PENDING
    · rw [if_pos hP] at h
      cases hsa : j.submitted_at with
      | none => simp [hsa] at h
      | some sa =>
        simp only [hsa] at h
        by_cases hfresh : sa > lu
        · rw [if_pos hfresh] at h
          by_cases hic : isCand j = true
          · rw [if_pos hic] at h
            by_cases hmem : j.jobid ∈ st.candidates
            · rw [if_pos hmem] at h
              simp at h
            · rw [if_neg hmem] at h
              cases h
              rfl
          · rw [if_neg hic] at h
            cases h
            rfl
        · rw [if_neg hfresh] at h
          cases h
          rfl
    · rw [if_neg hP] at h
      cases h
      rfl

/-- Fold of `processJob_vms_length`. -/
theorem processJobs_vms_length (isCand : JobInfo → Bool) (lu : Int) :
    ∀ (js : List JobInfo) (st st' : OrchState),
      processJobs isCand lu st js = some st' →
      st'.vms.length = st.vms.length
  | [], st, st', h => by
    rw [processJobs] at h
    cases h
    rfl
  | j :: js, st, st', h => by
    rw [processJobs] at h
    cases hpj : processJob isCand lu st j with
    | none => rw [hpj] at h; exact absurd h (by simp)
    | some st1 =>
      simp only [hpj] at h
      exact (processJobs_vms_length isCand lu js st1 st' h).trans
        (processJob_vms_length isCand lu st st1 j hpj)

/-- `update_job_status` never adds or removes VMs. -/
theorem update_job_status_vms_length (isCand : JobInfo → Bool)
    (cur : List JobInfo) (now : Int) (st st' : OrchState)
    (h : update_job_status isCand cur now st = some st') :
    st'.vms.length = st.vms.length := by
  rw [update_job_status] at h
  cases hu : upsertJobs st.last_update st.jobs cur with
  | none => rw [hu] at h; exact absurd h (by simp)
  | some jobs1 =>
    simp only [hu] at h
    cases hr : removeFinishedJobs jobs1 st.candidates (terminatedIds jobs1 cur) with
    | none =>
      simp only [hr] at h
      exact absurd h (by simp)
    | some out =>
      obtain ⟨jobs2, cands2⟩ := out
      simp only [hr] at h
      cases hp : processJobs isCand st.last_update
          { st with jobs := jobs2, candidates := cands2,
                    vms := subtractFromActiveVms
                      (terminatedIds jobs1 cur).toFinset st.vms }
          jobs2 with
      | none =>
        simp only [hp] at h
        exact absurd h (by simp)
      | some st3 =>
        simp only [hp] at h
        cases h
        have := processJobs_vms_length isCand st.last_update jobs2 _ st3 hp
        simpa [subtractFromActiveVms] using this

/-- The garbage-collection loop only removes VMs. -/
theorem gcLoop_length (stopOk : String → Bool) (now elapsed timeout : Int) :
    ∀ (vms out : List VmInfoRec),
      gcLoop stopOk now elapsed timeout vms = some out →
      out.length ≤ vms.length
  | [], out, h => by
    rw [gcLoop] at h
    cases h
    simp
  | vm :: rest, out, h => by
    rw [gcLoop] at h
    cases hg : gcVm stopOk now elapsed timeout vm with
    | none => rw [hg] at h; exact absurd h (by simp)
    | some r =>
      simp only [hg] at h
      cases hrest : gcLoop stopOk now elapsed timeout rest with
      | none =>
        simp only [hrest] at h
        exact absurd h (by simp)
      | some rest' =>
        simp only [hrest] at h
        cases h
        have hlen := gcLoop_length stopOk now elapsed timeout rest rest' hrest
        cases r with
        | none => simpa using Nat.le_succ_of_le hlen
        | some v => simpa using hlen

/-- `new_vm` does not touch the VM table. -/
theorem new_vm_vms (st st' : OrchState) (draws draws' : List String)
    (vm : VmInfoRec) (h : new_vm st draws = some (vm, st', draws')) :
    st'.vms = st.vms := by
  rw [new_vm] at h
  cases hpick : pickAuth st.pending_auth draws with
  | none => rw [hpick] at h; exact absurd h (by simp)
  | some pr =>
    simp only [hpick] at h
    split at h
    · exact absurd h (by simp)
    · cases h
      rfl

/-- A start dispatch grows the VM table by at most one entry. -/
theorem do_start_vm_length (ok : Bool) (now : Int) (vm : VmInfoRec)
    (st st' : OrchState) (h : do_start_vm ok now vm st = some st') :
    st'.vms.length ≤ st.vms.length + 1 := by
  rw [do_start_vm] at h
  by_cases hfound : (lookupVm st.vms vm.vmid).isSome
  · rw [if_pos hfound] at h
    exact absurd h (by simp)
  · rw [if_neg hfound] at h
    cases ok with
    | true =>
      simp only [if_true] at h
      cases ha : vm.auth with
      | none => simp only [ha] at h; exact absurd h (by simp)
      | some a =>
        simp only [ha] at h
        cases h
        simp
    | false =>
      simp only [if_false] at h
      cases h
      omega

/-- The start loop keeps `|vms| ≤ max_vms` and dispatches at most `n`
starts in `n` iterations. -/
theorem startLoopGo_bounds (needNew : OrchState → Bool) (startOk : String → Bool)
    (now : Int) (max_vms : Nat) :
    ∀ (n : Nat) (st : OrchState) (draws : List String)
      (out : OrchState × List String × Nat),
      startLoopGo needNew startOk now max_vms n st draws = some out →
      st.vms.length ≤ max_vms →
      out.1.vms.length ≤ max_vms ∧ out.2.2 ≤ n
  | 0, st, draws, out, h, hlen => by
    rw [startLoopGo] at h
    cases h
    exact ⟨hlen, Nat.le_refl 0⟩
  | n + 1, st, draws, out, h, hlen => by
    rw [startLoopGo] at h
    by_cases hcond : needNew st ∧ st.vms.length < max_vms
    · rw [if_pos hcond] at h
      cases hnv : new_vm st draws with
      | none => rw [hnv] at h; exact absurd h (by simp)
      | some pr =>
        obtain ⟨vm, st1, draws1⟩ := pr
        simp only [hnv] at h
        cases hds : do_start_vm (startOk vm.vmid) now vm st1 with
        | none =>
          simp only [hds] at h
          exact absurd h (by simp)
        | some st2 =>
          simp only [hds] at h
          cases hrec : startLoopGo needNew startOk now max_vms n st2 draws1 with
          | none =>
            simp only [hrec] at h
            exact absurd h (by simp)
          | some out3 =>
            obtain ⟨st3, draws2, d⟩ := out3
            simp only [hrec] at h
            cases h
            have hlen2 : st2.vms.length ≤ max_vms := by
              have h1 := do_start_vm_length (startOk vm.vmid) now vm st1 st2 hds
              have h2 := new_vm_vms st st1 draws draws1 vm hnv
              rw [h2] at h1
              omega
            have hind := startLoopGo_bounds needNew startOk now max_vms n st2
              draws1 (st3, draws2, d) hrec hlen2
            exact ⟨hind.1, Nat.succ_le_succ hind.2⟩
    · rw [if_neg hcond] at h
      cases h
      exact ⟨hlen, Nat.zero_le _⟩

/-- C2: one reconciliation cycle keeps the number of managed VMs within
`max_vms` (a start is dispatched only while `is_new_vm_needed()` holds
and `len(vms) < max_vms`), and issues at most `max_delta` start
dispatches (the start loop runs at most `max_delta` iterations). -/
theorem runCycle_bounds (isCand : JobInfo → Bool) (needNew : OrchState → Bool)
    (canStop : VmInfoRec → Bool) (newState : VmInfoRec → VmState)
    (startOk stopOk : String → Bool) (snapshot : List JobInfo)
    (draws : List String) (now elapsed timeout : Int) (max_vms max_delta : Nat)
    (st st' : OrchState) (d : Nat)
    (hlen : st.vms.length ≤ max_vms)
    (h : runCycle isCand needNew canStop newState startOk stopOk snapshot draws
      now elapsed timeout max_vms max_delta st = some (st', d)) :
    st'.vms.length ≤ max_vms ∧ d ≤ max_delta := by
  rw [runCycle] at h
  cases hu : update_job_status isCand snapshot now st with
  | none => rw [hu] at h; exact absurd h (by simp)
  | some st1 =>
    simp only [hu] at h
    cases hg : gcLoop stopOk now elapsed timeout
        (st1.vms.map (fun vm => { vm with state := newState vm })) with
    | none =>
      simp only [hg] at h
      exact absurd h (by simp)
    | some vms3 =>
      simp only [hg] at h
      cases hs : startLoopGo needNew startOk now max_vms max_delta
          { st1 with vms := vms3 } draws with
      | none =>
        simp only [hs] at h
        exact absurd h (by simp)
      | some out4 =>
        obtain ⟨st4, draws2, d4⟩ := out4
        simp only [hs] at h
        cases h
        have hlen1 : st1.vms.length = st.vms.length :=
          update_job_status_vms_length isCand snapshot now st st1 hu
        have hlen3 : vms3.length ≤ max_vms := by
          have := gcLoop_length stopOk now elapsed timeout _ vms3 hg
          simpa [hlen1] using le_trans this (by simpa [hlen1] using hlen)
        have hbounds := startLoopGo_bounds needNew startOk now max_vms max_delta
          { st1 with vms := vms3 } draws (st4, draws2, d) hs hlen3
        constructor
        · simpa [stopLoop] using hbounds.1
        · exact hbounds.2

/-- C2 witness: a cycle from the empty state with `max_vms = 2` and
`max_delta = 5` dispatches exactly 2 starts and ends with 2 managed
VMs. -/
theorem runCycle_bounds_witness :
    stCycle2.vms.length ≤ 2 ∧ 2 ≤ 5 :=
  runCycle_bounds (fun _ => false) (fun _ => true) (fun _ => false)
    (fun vm => vm.state) (fun _ => true) (fun _ => true) [] ["p1", "p2", "p3"]
    10 10 600 2 5 stEmpty stCycle2 2 (by decide) (by decide)

end VmMad
